import Mathlib

/-
Verification of the kartapp station-map repository
(src/routes/api/geocode/+server.ts: geocode proxy + StationMap component).

The untyped JavaScript values flowing through the normalization and
filtering pipeline are shallowly embedded as `JSVal`.  JS numbers are
modelled as exact rationals (`vnum`), with a single constructor `vnan`
standing for any non-finite number (NaN, ±Infinity): the code only ever
distinguishes numbers by `Number.isFinite`, which is false for all of
them.  Fallible coercions return `Option ℚ`.
-/

namespace Kartapp

inductive JSVal where
  | vundefined : JSVal
  | vnull : JSVal
  | vbool : Bool → JSVal
  | vnum : ℚ → JSVal
  | vnan : JSVal
  | vstr : String → JSVal
  | vobj : List (String × JSVal) → JSVal
  | varr : List JSVal → JSVal

/-- JS nullish test (`x == null`, the guard of `??` and `?.`): true exactly
for `null` and `undefined`. -/
def nullish : JSVal → Bool
  | .vnull => true
  | .vundefined => true
  | _ => false

/-- The JS nullish-coalescing operator `a ?? b`. -/
def coalesce (a b : JSVal) : JSVal :=
  if nullish a then b else a

/-- Property read `v?.k` (and `v.k` where the source has already ruled out a
nullish receiver, on which the two agree).  Named properties absent from an
object — or read off a primitive or array, none of which carries any of the
keys this code reads — yield `undefined`. -/
def jsGet (v : JSVal) (k : String) : JSVal :=
  match v with
  | .vobj fields =>
      match fields.lookup k with
      | some x => x
      | none => .vundefined
  | _ => .vundefined

/-! ### ECMAScript string-to-number coercion (`Number(s)`)

`toNumber` (source lines 84–92) calls the JS builtin `Number` on strings;
the fragment of the ECMAScript StringNumericLiteral grammar below covers
whitespace trimming, the empty string, signed decimal literals with
optional fraction and exponent, `Infinity`, and `0x/0o/0b` radix literals.
Values outside double range are not rounded or overflowed: numbers are
exact rationals here. -/

/-- ECMAScript StrWhiteSpaceChar (the common members; all are characters
that never occur inside a numeric literal). -/
def strWhiteSpace (c : Char) : Bool :=
  c == ' ' || c == '\t' || c == '\n' || c == '\r' ||
    c == '\x0b' || c == '\x0c' || c == '\u00A0' || c == '\uFEFF'

/-- Strip leading and trailing StrWhiteSpace, as `Number(string)` does. -/
def trimCs (cs : List Char) : List Char :=
  ((cs.dropWhile strWhiteSpace).reverse.dropWhile strWhiteSpace).reverse

/-- Decimal digit run → value. -/
def digitsToNat (cs : List Char) : ℕ :=
  cs.foldl (fun a c => 10 * a + (c.toNat - 48)) 0

/-- Value of a digit in radix ≤ 16, if any. -/
def radixDigit (c : Char) : Option ℕ :=
  if c.isDigit then some (c.toNat - 48)
  else if 'a' ≤ c ∧ c ≤ 'f' then some (c.toNat - 87)
  else if 'A' ≤ c ∧ c ≤ 'F' then some (c.toNat - 55)
  else none

/-- Nonempty run of digits of radix `r` (after a `0x`/`0o`/`0b` prefix). -/
def parseRadix (r : ℕ) (cs : List Char) : Option ℚ :=
  if cs.isEmpty then none
  else
    (cs.foldl
      (fun acc c =>
        acc.bind fun a =>
          (radixDigit c).bind fun d => if d < r then some (r * a + d) else none)
      (some 0)).map (fun n => (n : ℚ))

/-- Exponent digits: `base·10^±e`; empty or non-digit input is NaN. -/
def parseExpDigits (base : ℚ) (neg : Bool) (ds : List Char) : Option ℚ :=
  if ds.isEmpty then none
  else if ds.all Char.isDigit then
    some (if neg then base / 10 ^ digitsToNat ds else base * 10 ^ digitsToNat ds)
  else none

/-- Optionally signed exponent digits. -/
def parseExpSigned (base : ℚ) (cs : List Char) : Option ℚ :=
  match cs with
  | [] => none
  | c :: rest =>
      if c = '+' then parseExpDigits base false rest
      else if c = '-' then parseExpDigits base true rest
      else parseExpDigits base false cs

/-- Optional `e`/`E` exponent part; anything else trailing is NaN. -/
def parseExp (base : ℚ) (cs : List Char) : Option ℚ :=
  match cs with
  | [] => some base
  | c :: rest => if c = 'e' ∨ c = 'E' then parseExpSigned base rest else none

/-- Continuation of the decimal literal after the leading digit run `ip`:
an optional `. digits` fraction, then an optional exponent. -/
def parseAfterDigits (ip rest : List Char) : Option ℚ :=
  match rest with
  | [] => if ip.isEmpty then none else some (digitsToNat ip : ℚ)
  | c :: rest2 =>
      if c = '.' then
        if ip.isEmpty ∧ (rest2.takeWhile Char.isDigit).isEmpty then none
        else
          parseExp
            ((digitsToNat ip : ℚ) +
              (digitsToNat (rest2.takeWhile Char.isDigit) : ℚ)
                / 10 ^ (rest2.takeWhile Char.isDigit).length)
            (rest2.dropWhile Char.isDigit)
      else if ip.isEmpty then none
      else parseExp (digitsToNat ip : ℚ) rest

/-- Unsigned decimal literal: `digits [. digits] [exp]` or `. digits [exp]`. -/
def parseUnsignedDec (cs : List Char) : Option ℚ :=
  parseAfterDigits (cs.takeWhile Char.isDigit) (cs.dropWhile Char.isDigit)

/-- `Infinity` (not finite, hence `none`) or an unsigned decimal literal,
with the sign applied. -/
def parseSignedTail (cs : List Char) (neg : Bool) : Option ℚ :=
  if cs = "Infinity".toList then none
  else (parseUnsignedDec cs).map (fun q => if neg then -q else q)

/-- Recognize a `0x`/`0X`/`0o`/`0O`/`0b`/`0B` radix prefix. -/
def radixPrefix (cs : List Char) : Option (ℕ × List Char) :=
  match cs with
  | c0 :: c :: t =>
      if c0 = '0' then
        if c = 'x' ∨ c = 'X' then some (16, t)
        else if c = 'o' ∨ c = 'O' then some (8, t)
        else if c = 'b' ∨ c = 'B' then some (2, t)
        else none
      else none
  | _ => none

/-- `Number(string)` after trimming; `none` is a non-finite result
(NaN or ±Infinity — `Number.isFinite` is false for all of them). -/
def jsStringToNumberCs (cs : List Char) : Option ℚ :=
  match radixPrefix cs with
  | some (r, t) => parseRadix r t
  | none =>
      match cs with
      | [] => some 0
      | c :: rest =>
          if c = '+' then parseSignedTail rest false
          else if c = '-' then parseSignedTail rest true
          else parseSignedTail cs false

/-- `Number(s)` for a string `s`. -/
def jsStringToNumber (s : String) : Option ℚ :=
  jsStringToNumberCs (trimCs s.toList)

/-! ### ECMAScript ToString (`String(v)`), needed by `eqType` -/

/-- Decimal digits of `num/den` (with `num < den`), fuel-bounded; exact for
every dyadic rational, i.e. for every IEEE double. -/
def fracDigits : ℕ → ℕ → ℕ → List Char
  | 0, _, _ => []
  | _ + 1, 0, _ => []
  | fuel + 1, num, den =>
      Char.ofNat (48 + num * 10 / den) :: fracDigits fuel (num * 10 % den) den

/-- Plain decimal rendering of a finite JS number (exponent notation for
extreme magnitudes is not modelled; no value rendered by this code reaches
those ranges). -/
def jsNumToString (q : ℚ) : String :=
  (if q < 0 then "-" else "") ++ Nat.repr (q.num.natAbs / q.den) ++
    (if q.num.natAbs % q.den = 0 then ""
     else "." ++ String.mk (fracDigits 1100 (q.num.natAbs % q.den) q.den))

mutual

/-- ECMAScript `String(v)` on the embedded values (plain objects render via
`Object.prototype.toString`; arrays comma-join their elements, with nullish
elements rendering empty). -/
def jsToString : JSVal → String
  | .vundefined => "undefined"
  | .vnull => "null"
  | .vbool b => if b then "true" else "false"
  | .vnum q => jsNumToString q
  | .vnan => "NaN"
  | .vstr s => s
  | .vobj _ => "[object Object]"
  | .varr xs => jsArrJoin xs

/-- `Array.prototype.toString` = `join(",")`. -/
def jsArrJoin : List JSVal → String
  | [] => ""
  | x :: xs =>
      (match x with
       | .vnull => ""
       | .vundefined => ""
       | v => jsToString v) ++
        (if xs.isEmpty then "" else "," ++ jsArrJoin xs)

end

/-- `Number(v)` on an arbitrary value (`runSearch` applies it to `d.lat`,
`d.lon` and the `boundingbox` entries); `none` is NaN. -/
def jsNumberOf : JSVal → Option ℚ
  | .vundefined => none
  | .vnull => some 0
  | .vbool b => some (if b then 1 else 0)
  | .vnum q => some q
  | .vnan => none
  | .vstr s => jsStringToNumber s
  | .vobj fs => jsStringToNumber (jsToString (.vobj fs))
  | .varr xs => jsStringToNumber (jsToString (.varr xs))

/-! ### The normalization pipeline (source lines 84–136) -/

/-- `toNumber` (lines 84–92): finite numbers pass through, non-finite
numbers map to null; strings have their first comma replaced by a dot
(`n.replace(',', '.')` replaces only the first occurrence) and are then
coerced by `Number`; every other type maps to null.  `none` is null. -/
def replFirstComma : List Char → List Char
  | [] => []
  | c :: cs => if c = ',' then '.' :: cs else c :: replFirstComma cs

def toNumber : JSVal → Option ℚ
  | .vnum q => some q
  | .vnan => none
  | .vstr s => jsStringToNumberCs (trimCs (replFirstComma s.toList))
  | _ => none

/-- `String.prototype.trim`: strip leading and trailing whitespace (the
same character set as the numeric-literal trimming above). -/
def jsTrim (s : String) : String :=
  String.mk (trimCs s.toList)

/-- `String.prototype.toLowerCase` (on the character sets appearing here it
is plain per-character lowercasing). -/
def jsToLower (s : String) : String :=
  String.mk (s.toList.map Char.toLower)

/-- `eqType` (lines 93–96): nullish never matches; otherwise compare
`String(a).trim().toLowerCase()` with `b.toLowerCase()`. -/
def eqType (a : JSVal) (b : String) : Bool :=
  if nullish a then false
  else jsToLower (jsTrim (jsToString a)) == jsToLower b

/-- `name` chain of `normalizeStation` (lines 99–100):
`s?.station?.name ?? s?.name ?? s?.title ?? s?.stationName ?? 'Ukjent stasjon'`. -/
def nameCandidate (s : JSVal) : JSVal :=
  coalesce
    (coalesce (coalesce (coalesce (jsGet (jsGet s "station") "name") (jsGet s "name"))
        (jsGet s "title"))
      (jsGet s "stationName"))
    (.vstr "Ukjent stasjon")

/-- `g` of `normalizeStation` (line 102):
`s?.station?.geolocation ?? s?.geolocation ?? s?.geo ?? s`, with an empty
object literal as the final fallback. -/
def geoObj (s : JSVal) : JSVal :=
  coalesce
    (coalesce (coalesce (coalesce (jsGet (jsGet s "station") "geolocation")
          (jsGet s "geolocation"))
        (jsGet s "geo"))
      s)
    (.vobj [])

/-- Latitude candidate chain (lines 103–104):
`g.latitude ?? g.lat ?? g.Latitude ?? g.Lat ?? s?.lat ?? s?.Latitude`. -/
def latCandidate (s : JSVal) : JSVal :=
  coalesce
    (coalesce (coalesce (coalesce (coalesce (jsGet (geoObj s) "latitude")
            (jsGet (geoObj s) "lat"))
          (jsGet (geoObj s) "Latitude"))
        (jsGet (geoObj s) "Lat"))
      (jsGet s "lat"))
    (jsGet s "Latitude")

/-- Longitude candidate chain (lines 105–106). -/
def lngCandidate (s : JSVal) : JSVal :=
  coalesce
    (coalesce (coalesce (coalesce (coalesce (jsGet (geoObj s) "longitude")
            (jsGet (geoObj s) "lng"))
          (jsGet (geoObj s) "Longitude"))
        (jsGet (geoObj s) "Lng"))
      (jsGet s "lng"))
    (jsGet s "Longitude")

/-- Timestamp chain (lines 108–109), before the `new Date().toISOString()`
fallback: `s?.lastUpdated ?? s?.updatedAt ?? s?.modified ?? s?.lastModified`. -/
def tsCandidate (s : JSVal) : JSVal :=
  coalesce (coalesce (coalesce (jsGet s "lastUpdated") (jsGet s "updatedAt"))
      (jsGet s "modified"))
    (jsGet s "lastModified")

/-- Station-type chain (line 111):
`s?.station?.stationType ?? s?.stationType ?? null`. -/
def typeCandidate (s : JSVal) : JSVal :=
  coalesce (coalesce (jsGet (jsGet s "station") "stationType") (jsGet s "stationType"))
    .vnull

structure NormalizedStation where
  name : JSVal
  lat : Option ℚ
  lng : Option ℚ
  lastUpdated : JSVal
  stationType : JSVal

/-- `normalizeStation` (lines 98–114).  The wall clock read by
`new Date().toISOString()` is passed in explicitly as `now` (the ISO string
it would produce), so that the dependence on the call time is visible. -/
def normalizeStation (now : String) (s : JSVal) : NormalizedStation :=
  { name := nameCandidate s
    lat := toNumber (latCandidate s)
    lng := toNumber (lngCandidate s)
    lastUpdated := coalesce (tsCandidate s) (.vstr now)
    stationType := typeCandidate s }

/-- The `typeFilter` record (lines 75–80). -/
structure TypeFilter where
  hideWash : Bool
  hideSelfservice : Bool
  hideTruck : Bool
  hideChargingLocation : Bool

/-- `passesTypeHide` (lines 130–136). -/
def passesTypeHide (tf : TypeFilter) (n : NormalizedStation) : Bool :=
  if tf.hideWash && eqType n.stationType "wash" then false
  else if tf.hideSelfservice && eqType n.stationType "selfservice" then false
  else if tf.hideTruck && eqType n.stationType "truck" then false
  else if tf.hideChargingLocation && eqType n.stationType "charginglocation" then false
  else true

/-! ### Rendering (source lines 183–218) -/

/-- One iteration of the `redrawMarkers` loop body (lines 194–214): skip a
station whose normalized `lat` or `lng` is null, skip one hidden by the
type filter, otherwise append its marker. -/
def redrawStep (now : String) (tf : TypeFilter) (acc : List NormalizedStation)
    (s : JSVal) : List NormalizedStation :=
  let n := normalizeStation now s
  if n.lat.isNone || n.lng.isNone then acc
  else if !passesTypeHide tf n then acc
  else acc ++ [n]

/-- `redrawMarkers` (lines 183–218): full rebuild of the marker list from
the station list. -/
def redrawMarkers (now : String) (tf : TypeFilter) (stations : List JSVal) :
    List NormalizedStation :=
  stations.foldl (redrawStep now tf) []

/-- `visibleCount = added` (line 216): the number of markers drawn. -/
def visibleCount (now : String) (tf : TypeFilter) (stations : List JSVal) : ℕ :=
  (redrawMarkers now tf stations).length

/-! ### Geocode proxy and search client -/

/-- Outcome of the proxy `GET` handler (lines 6–42 of the server file):
either an immediate local response or a forward to the upstream geocoder. -/
inductive ProxyResult where
  | respond : ℕ → String → ProxyResult
  | forward : String → String → ProxyResult

/-- The geocode proxy `GET` (server lines 6–14 for the guard): with `q`
absent (null) or falsy or trimming to fewer than 2 characters, respond 200
with an empty JSON array; otherwise forward `q` and the `limit` parameter
(defaulted to `"8"` by `?? '8'`) upstream. -/
def geocodeGET (q : Option String) (limit : Option String) : ProxyResult :=
  let lim := limit.getD "8"
  match q with
  | none => .respond 200 "[]"
  | some qs =>
      if qs = "" ∨ (jsTrim qs).length < 2 then .respond 200 "[]"
      else .forward qs lim

/-- A parsed search-result entry as built by `runSearch` (lines 235–240):
`display` is `d.display_name` (a bare cast, no coercion), `lat`/`lon` are
`Number(d.lat)`/`Number(d.lon)` (`none` = NaN), `bbox` is
`d.boundingbox?.map(Number)`. -/
structure MappedResult where
  display : JSVal
  lat : Option ℚ
  lon : Option ℚ
  bbox : Option (List (Option ℚ))

/-- Evaluation of the arrow-function body for one entry `d`.  `none` means
the body throws a TypeError, which lands in `runSearch`'s catch: a nullish
entry throws at `d.display_name`, and a non-nullish, non-array
`boundingbox` passes the `?.` guard and then throws at `.map` (only
nullish values short-circuit `?.`, and only arrays have a `map` method
among the JSON value shapes). -/
def mapDatum (d : JSVal) : Option MappedResult :=
  if nullish d then none
  else
    match jsGet d "boundingbox" with
    | .vundefined =>
        some { display := jsGet d "display_name"
               lat := jsNumberOf (jsGet d "lat")
               lon := jsNumberOf (jsGet d "lon")
               bbox := none }
    | .vnull =>
        some { display := jsGet d "display_name"
               lat := jsNumberOf (jsGet d "lat")
               lon := jsNumberOf (jsGet d "lon")
               bbox := none }
    | .varr xs =>
        some { display := jsGet d "display_name"
               lat := jsNumberOf (jsGet d "lat")
               lon := jsNumberOf (jsGet d "lon")
               bbox := some (xs.map jsNumberOf) }
    | _ => none

/-- `Array.prototype.map` with a possibly-throwing body: the first entry
that throws aborts the whole map (`none`); otherwise the mapped list. -/
def mapResults : List JSVal → Option (List MappedResult)
  | [] => some []
  | d :: ds => (mapDatum d).bind fun r => (mapResults ds).map fun rs => r :: rs

/-- The search-box state written by `runSearch`. -/
structure SearchState where
  results : List MappedResult
  showList : Bool
  activeIndex : Int

/-- The length-guard at the top of `runSearch` (lines 222–225): a falsy or
short (trimmed length < 2) term resets the state and returns without any
request; otherwise the fetch proceeds. -/
inductive SearchGate where
  | shortCircuit : SearchState → SearchGate
  | proceed : String → SearchGate

def runSearchGate (term : String) : SearchGate :=
  if term = "" ∨ (jsTrim term).length < 2 then
    .shortCircuit { results := [], showList := false, activeIndex := -1 }
  else .proceed term

/-- Processing of a successful geocode response body (lines 234–248):
non-arrays collapse to `[]`; if every entry's arrow-function body returns,
the mapped list (nothing filtered out) is shown with the active index 0
exactly when it is nonempty (lines 235–242); if any entry throws, control
lands in the catch (lines 243–245), which empties and closes the list. -/
def runSearchSuccess (data : JSVal) : SearchState :=
  match mapResults (match data with | .varr xs => xs | _ => []) with
  | some rs =>
      { results := rs
        showList := true
        activeIndex := if rs.length = 0 then -1 else 0 }
  | none => { results := [], showList := false, activeIndex := -1 }

/-! ### Specification-side definitions and fixtures -/

/-- The fields of a normalized station a marker exposes apart from the
display-only timestamp: which stations are visible is determined by these. -/
def visibleKey (n : NormalizedStation) : JSVal × Option ℚ × Option ℚ × JSVal :=
  (n.name, n.lat, n.lng, n.stationType)

/-- The spec's visibility predicate: both normalized coordinates non-null
and the type filter passed. -/
def visibleSpec (tf : TypeFilter) (n : NormalizedStation) : Bool :=
  n.lat.isSome && n.lng.isSome && passesTypeHide tf n

/-- All four hide-flags off (the initial `typeFilter`, lines 75–80). -/
def tfOff : TypeFilter :=
  { hideWash := false, hideSelfservice := false, hideTruck := false
    hideChargingLocation := false }

/-- Fixture: a record with a top-level `lat` but no longitude at all. -/
def recLatOnly : JSVal := .vobj [("lat", .vstr "60")]

/-- Fixture: a geolocation sub-object whose `latitude` is a non-numeric
string, next to a perfectly usable top-level `lat`. -/
def recGeoBad : JSVal :=
  .vobj [("geolocation", .vobj [("latitude", .vstr "abc")]), ("lat", .vstr "60")]

/-- Fixture: an empty geolocation sub-object next to a top-level `lat`. -/
def recGeoEmpty : JSVal :=
  .vobj [("geolocation", .vobj []), ("lat", .vstr "60")]

/-- Fixture: a record whose every coordinate field is the empty string. -/
def recEmptyCoords : JSVal := .vobj [("lat", .vstr ""), ("lng", .vstr "")]

/-- Fixture: a record with both coordinates present and parsable. -/
def recBothCoords : JSVal := .vobj [("lat", .vstr "1"), ("lng", .vstr "2")]

/-- Fixture: a geocode response entry with no `lat`/`lon` at all. -/
def geoEntryMissing : JSVal := .vobj [("display_name", .vstr "Oslo")]

/-- Fixture: a geocode response holding only `geoEntryMissing`. -/
def geoRespMissing : JSVal := .varr [geoEntryMissing]

/-- Fixture: a geocode response entry whose `boundingbox` is a non-nullish
non-array, so `.map` throws on it. -/
def geoEntryBadBbox : JSVal :=
  .vobj [("display_name", .vstr "Oslo"), ("boundingbox", .vstr "broken")]

/-! ### Helper lemmas -/

theorem coalesce_of_nullish {a : JSVal} (h : nullish a = true) (b : JSVal) :
    coalesce a b = b := by
  simp [coalesce, h]

theorem coalesce_of_not_nullish {a : JSVal} (h : nullish a = false) (b : JSVal) :
    coalesce a b = a := by
  simp [coalesce, h]

theorem eqType_of_nullish {a : JSVal} (h : nullish a = true) (b : String) :
    eqType a b = false := by
  simp [eqType, h]

theorem eqType_of_not_nullish {a : JSVal} (h : nullish a = false) (b : String) :
    eqType a b = (jsToLower (jsTrim (jsToString a)) == jsToLower b) := by
  simp [eqType, h]

theorem ne_of_isDigit {c d : Char} (h : c.isDigit = true) (hd : d.isDigit = false) :
    ¬ c = d := by
  intro e
  rw [e] at h
  rw [h] at hd
  exact Bool.noConfusion hd

theorem dropWhile_eq_self_of_all {α : Type} (p : α → Bool) (l : List α)
    (h : ∀ c ∈ l, p c = false) : l.dropWhile p = l := by
  cases l with
  | nil => rfl
  | cons a t => simp [List.dropWhile, h a (by simp)]

theorem trimCs_eq_self (l : List Char) (h : ∀ c ∈ l, strWhiteSpace c = false) :
    trimCs l = l := by
  unfold trimCs
  rw [dropWhile_eq_self_of_all _ _ h,
    dropWhile_eq_self_of_all _ _ (fun c hc => h c (List.mem_reverse.mp hc)),
    List.reverse_reverse]

theorem isDigit_not_ws {c : Char} (h : c.isDigit = true) : strWhiteSpace c = false := by
  by_cases h1 : c = ' '
  · subst h1; exact absurd h (by decide)
  by_cases h2 : c = '\t'
  · subst h2; exact absurd h (by decide)
  by_cases h3 : c = '\n'
  · subst h3; exact absurd h (by decide)
  by_cases h4 : c = '\r'
  · subst h4; exact absurd h (by decide)
  by_cases h5 : c = '\x0b'
  · subst h5; exact absurd h (by decide)
  by_cases h6 : c = '\x0c'
  · subst h6; exact absurd h (by decide)
  by_cases h7 : c = ' '
  · subst h7; exact absurd h (by decide)
  by_cases h8 : c = '﻿'
  · subst h8; exact absurd h (by decide)
  simp [strWhiteSpace, h1, h2, h3, h4, h5, h6, h7, h8]

theorem replFirstComma_digits (ip fp : List Char) (h : ∀ c ∈ ip, c.isDigit = true) :
    replFirstComma (ip ++ ',' :: fp) = ip ++ '.' :: fp := by
  induction ip with
  | nil => simp [replFirstComma]
  | cons c cs ih =>
      have hc : ¬ c = ',' := ne_of_isDigit (h c (by simp)) (by decide)
      simp only [List.cons_append, replFirstComma, if_neg hc, List.append_eq]
      rw [ih (fun x hx => h x (by simp [hx]))]

theorem takeWhile_append_cons {α : Type} (p : α → Bool) (l1 : List α) (d : α)
    (t : List α) (h1 : ∀ c ∈ l1, p c = true) (hd : p d = false) :
    (l1 ++ d :: t).takeWhile p = l1 ∧ (l1 ++ d :: t).dropWhile p = d :: t := by
  induction l1 with
  | nil => simp [List.takeWhile, List.dropWhile, hd]
  | cons a l ih =>
      have ha : p a = true := h1 a (by simp)
      have ih' := ih (fun c hc => h1 c (by simp [hc]))
      simp only [List.cons_append, List.takeWhile, List.dropWhile, ha, List.append_eq]
      exact ⟨by rw [ih'.1], ih'.2⟩

theorem takeWhile_all {α : Type} (p : α → Bool) (l : List α)
    (h : ∀ c ∈ l, p c = true) : l.takeWhile p = l ∧ l.dropWhile p = [] := by
  induction l with
  | nil => simp
  | cons a t ih =>
      have ha : p a = true := h a (by simp)
      have ih' := ih (fun c hc => h c (by simp [hc]))
      simp only [List.takeWhile, List.dropWhile, ha]
      exact ⟨by rw [ih'.1], ih'.2⟩

theorem radixPrefix_none (a b : Char) (t : List Char)
    (hb : b.isDigit = true ∨ b = '.') : radixPrefix (a :: b :: t) = none := by
  have hx : ¬ (b = 'x' ∨ b = 'X') := by
    rcases hb with h | h
    · rintro (rfl | rfl) <;> exact absurd h (by decide)
    · subst h; decide
  have ho : ¬ (b = 'o' ∨ b = 'O') := by
    rcases hb with h | h
    · rintro (rfl | rfl) <;> exact absurd h (by decide)
    · subst h; decide
  have hbb : ¬ (b = 'b' ∨ b = 'B') := by
    rcases hb with h | h
    · rintro (rfl | rfl) <;> exact absurd h (by decide)
    · subst h; decide
  show (if a = '0' then
          if b = 'x' ∨ b = 'X' then some (16, t)
          else if b = 'o' ∨ b = 'O' then some (8, t)
          else if b = 'b' ∨ b = 'B' then some (2, t)
          else none
        else none) = none
  by_cases ha : a = '0'
  · rw [if_pos ha, if_neg hx, if_neg ho, if_neg hbb]
  · rw [if_neg ha]

/-- A non-throwing map preserves the entry count: nothing is excluded. -/
theorem mapResults_length :
    ∀ (xs : List JSVal) (rs : List MappedResult),
      mapResults xs = some rs → rs.length = xs.length := by
  intro xs
  induction xs with
  | nil =>
      intro rs h
      obtain rfl : ([] : List MappedResult) = rs := Option.some.inj h
      rfl
  | cons d ds ih =>
      intro rs h
      unfold mapResults at h
      cases hd : mapDatum d with
      | none => rw [hd] at h; cases h
      | some r =>
          rw [hd] at h
          cases hds : mapResults ds with
          | none => rw [hds] at h; cases h
          | some rs' =>
              rw [hds] at h
              obtain rfl : r :: rs' = rs := Option.some.inj h
              simp [ih rs' hds]

/-- The loop body appends the marker exactly when the spec's visibility
predicate holds. -/
theorem redrawStep_eq (now : String) (tf : TypeFilter) (acc : List NormalizedStation)
    (s : JSVal) :
    redrawStep now tf acc s =
      if visibleSpec tf (normalizeStation now s) then acc ++ [normalizeStation now s]
      else acc := by
  unfold redrawStep visibleSpec
  rcases h1 : (normalizeStation now s).lat <;> rcases h2 : (normalizeStation now s).lng <;>
    rcases h3 : passesTypeHide tf (normalizeStation now s) <;>
      simp [h1, h2, h3]

theorem redraw_aux (now : String) (tf : TypeFilter) (st : List JSVal) :
    ∀ acc, st.foldl (redrawStep now tf) acc =
      acc ++ ((st.map (normalizeStation now)).filter (visibleSpec tf)) := by
  induction st with
  | nil => intro acc; simp
  | cons s t ih =>
      intro acc
      rw [List.foldl_cons, ih, List.map_cons, List.filter_cons, redrawStep_eq]
      rcases h : visibleSpec tf (normalizeStation now s) <;> simp [h]

/-- `redrawMarkers` keeps exactly the stations that normalize to both
coordinates non-null and pass the type filter. -/
theorem redrawMarkers_eq (now : String) (tf : TypeFilter) (st : List JSVal) :
    redrawMarkers now tf st =
      (st.map (normalizeStation now)).filter (visibleSpec tf) := by
  unfold redrawMarkers
  rw [redraw_aux]
  simp

/-- Only the display-only `lastUpdated` field of a normalized station can
depend on the wall clock: key and visibility agree across call times. -/
theorem visibleKey_normalize_now (now now' : String) (s : JSVal) :
    visibleKey (normalizeStation now s) = visibleKey (normalizeStation now' s) :=
  rfl

theorem visibleSpec_normalize_now (tf : TypeFilter) (now now' : String) (s : JSVal) :
    visibleSpec tf (normalizeStation now s) = visibleSpec tf (normalizeStation now' s) :=
  rfl

theorem redraw_keys_now (now now' : String) (tf : TypeFilter) (st : List JSVal) :
    (redrawMarkers now tf st).map visibleKey = (redrawMarkers now' tf st).map visibleKey := by
  rw [redrawMarkers_eq, redrawMarkers_eq]
  induction st with
  | nil => rfl
  | cons s t ih =>
      rw [List.map_cons, List.map_cons, List.filter_cons, List.filter_cons,
        ← visibleSpec_normalize_now tf now now' s]
      by_cases h : visibleSpec tf (normalizeStation now s) = true
      · rw [if_pos h, if_pos h, List.map_cons, List.map_cons, ih,
          visibleKey_normalize_now now now' s]
      · rw [if_neg h, if_neg h]
        exact ih

/-! ### Claim theorems -/

/-- C8: the rendered count is exactly the number of stations whose
normalized coordinates are both non-null and which pass the type filter,
and rendering twice with the same station list and filter state — even at
two different wall-clock times — yields the same count and the same
visible stations (compared on every marker field except the display-only
timestamp). -/
theorem render_count_and_idempotence (now now' : String) (tf : TypeFilter)
    (st : List JSVal) :
    visibleCount now tf st
        = ((st.map (normalizeStation now)).filter (visibleSpec tf)).length ∧
      visibleCount now tf st = visibleCount now' tf st ∧
      (redrawMarkers now tf st).map visibleKey
        = (redrawMarkers now' tf st).map visibleKey := by
  refine ⟨by rw [visibleCount, redrawMarkers_eq], ?_, redraw_keys_now now now' tf st⟩
  have h := congrArg List.length (redraw_keys_now now now' tf st)
  rwa [List.length_map, List.length_map] at h

/-- C1 counterexample: a record with a parsable top-level `lat` and no
longitude at all normalizes to `lat = 60`, `lng = null` — exactly one of
the two coordinates is null, refuting the both-or-neither invariant. -/
theorem coordInvariant_fails :
    (normalizeStation "t" recLatOnly).lat = some 60 ∧
      (normalizeStation "t" recLatOnly).lng = none := by
  constructor <;> decide

/-- C1 amended: `lat` and `lng` are each independently a finite number or
null; the invariant that actually holds is that every station kept by
`redrawMarkers` has both coordinates non-null (stations missing either one
are excluded from rendering). -/
theorem rendered_station_coords_nonnull (now : String) (tf : TypeFilter)
    (st : List JSVal) (n : NormalizedStation) (h : n ∈ redrawMarkers now tf st) :
    n.lat ≠ none ∧ n.lng ≠ none := by
  rw [redrawMarkers_eq] at h
  have hp := List.of_mem_filter h
  unfold visibleSpec at hp
  simp only [Bool.and_eq_true] at hp
  constructor
  · exact Option.isSome_iff_ne_none.mp hp.1.1
  · exact Option.isSome_iff_ne_none.mp hp.1.2

theorem rendered_station_coords_nonnull_witness :
    normalizeStation "t" recBothCoords ∈ redrawMarkers "t" tfOff [recBothCoords] ∧
      (normalizeStation "t" recBothCoords).lat ≠ none ∧
      (normalizeStation "t" recBothCoords).lng ≠ none := by
  have hm : normalizeStation "t" recBothCoords ∈ redrawMarkers "t" tfOff [recBothCoords] := by
    rw [show redrawMarkers "t" tfOff [recBothCoords]
        = [normalizeStation "t" recBothCoords] from rfl]
    exact List.mem_singleton.mpr rfl
  exact ⟨hm, rendered_station_coords_nonnull "t" tfOff [recBothCoords] _ hm⟩

/-- C3 counterexample: on a record with no recognized timestamp field,
`normalizeStation` read at two different wall-clock instants returns two
different records (the `lastUpdated` fallback is the current time), so the
function is not pure in the claimed sense. -/
theorem normalize_not_time_independent :
    normalizeStation "2024-01-01T00:00:00.000Z" (.vobj [])
      ≠ normalizeStation "2024-01-02T00:00:00.000Z" (.vobj []) := by
  intro h
  have h2 := congrArg NormalizedStation.lastUpdated h
  have h3 : JSVal.vstr "2024-01-01T00:00:00.000Z"
      = JSVal.vstr "2024-01-02T00:00:00.000Z" := h2
  have h4 := JSVal.vstr.inj h3
  exact absurd h4 (by decide)

/-- C3 amended: `normalizeStation` depends only on the record and the
wall-clock reading, and whenever the record carries any recognized
timestamp field (one of `lastUpdated`, `updatedAt`, `modified`,
`lastModified` non-nullish) two calls at arbitrary times agree exactly. -/
theorem normalize_deterministic_given_timestamp (now₁ now₂ : String) (s : JSVal)
    (h : nullish (tsCandidate s) = false) :
    normalizeStation now₁ s = normalizeStation now₂ s := by
  unfold normalizeStation
  rw [coalesce_of_not_nullish h, coalesce_of_not_nullish h]

theorem normalize_deterministic_given_timestamp_witness :
    nullish (tsCandidate (.vobj [("lastUpdated", .vstr "2020-01-01")])) = false ∧
      normalizeStation "a" (.vobj [("lastUpdated", .vstr "2020-01-01")])
        = normalizeStation "b" (.vobj [("lastUpdated", .vstr "2020-01-01")]) :=
  ⟨by decide, normalize_deterministic_given_timestamp "a" "b" _ (by decide)⟩

/-- C4 counterexample: the `??` chain accepts any non-nullish value, so a
record whose `name` field is the empty string normalizes to the empty
string — the output name is not always nonempty. -/
theorem name_can_be_empty :
    (normalizeStation "t" (.vobj [("name", .vstr "")])).name = .vstr "" := rfl

/-- C4 amended: the output name is the first non-nullish of `station.name`,
`name`, `title`, `stationName`; every record lacking all four recognized
name fields gets the fixed (nonempty) fallback string.  The name can only
be empty when a recognized name field itself holds the empty string. -/
theorem name_fallback (now : String) (s : JSVal)
    (h1 : nullish (jsGet (jsGet s "station") "name") = true)
    (h2 : nullish (jsGet s "name") = true)
    (h3 : nullish (jsGet s "title") = true)
    (h4 : nullish (jsGet s "stationName") = true) :
    (normalizeStation now s).name = .vstr "Ukjent stasjon" ∧
      "Ukjent stasjon" ≠ "" := by
  refine ⟨?_, by decide⟩
  show nameCandidate s = _
  unfold nameCandidate
  rw [coalesce_of_nullish h1, coalesce_of_nullish h2, coalesce_of_nullish h3,
    coalesce_of_nullish h4]

theorem name_fallback_witness :
    nullish (jsGet (jsGet (JSVal.vobj []) "station") "name") = true ∧
      (normalizeStation "t" (.vobj [])).name = .vstr "Ukjent stasjon" :=
  ⟨by decide, (name_fallback "t" (.vobj []) (by decide) (by decide) (by decide)
      (by decide)).1⟩

/-- C5 counterexample: a successful geocode response containing an entry
with no `lat`/`lon` is kept, not excluded — the mapped list still has the
entry, with NaN coordinates, and it is displayed (list shown, entry
selectable as the active index). -/
theorem nan_results_kept :
    (runSearchSuccess geoRespMissing).results.map (fun r => (r.lat, r.lon))
        = [(none, none)] ∧
      (runSearchSuccess geoRespMissing).results.length = 1 ∧
      (runSearchSuccess geoRespMissing).showList = true ∧
      (runSearchSuccess geoRespMissing).activeIndex = 0 := by
  refine ⟨rfl, rfl, rfl, rfl⟩

/-- C5 amended: response entries are coerced defensively (missing or
non-numeric coordinates collapse to NaN) but never excluded one by one.
On the non-throwing path — every entry non-nullish with a nullish or array
`boundingbox` — the kept list has exactly one entry per response element,
NaN coordinates included, and is displayed.  The only way a malformed
entry disappears is by throwing (nullish entry, or `.map` on a non-nullish
non-array `boundingbox`), which lands in the catch and empties and closes
the whole list rather than filtering that entry. -/
theorem search_results_not_filtered :
    (∀ (xs : List JSVal) (rs : List MappedResult), mapResults xs = some rs →
        (runSearchSuccess (.varr xs)).results = rs ∧
          rs.length = xs.length ∧
          (runSearchSuccess (.varr xs)).showList = true) ∧
      (∀ xs : List JSVal, mapResults xs = none →
        (runSearchSuccess (.varr xs)).results = [] ∧
          (runSearchSuccess (.varr xs)).showList = false ∧
          (runSearchSuccess (.varr xs)).activeIndex = -1) := by
  constructor
  · intro xs rs h
    refine ⟨?_, mapResults_length xs rs h, ?_⟩ <;> simp [runSearchSuccess, h]
  · intro xs h
    refine ⟨?_, ?_, ?_⟩ <;> simp [runSearchSuccess, h]

theorem search_results_not_filtered_witness :
    mapResults [geoEntryMissing]
        = some [{ display := .vstr "Oslo", lat := none, lon := none, bbox := none }] ∧
      (runSearchSuccess (.varr [geoEntryMissing])).results
        = [{ display := .vstr "Oslo", lat := none, lon := none, bbox := none }] ∧
      (runSearchSuccess (.varr [geoEntryMissing])).showList = true ∧
      mapResults [geoEntryBadBbox] = none ∧
      (runSearchSuccess (.varr [geoEntryBadBbox])).results = [] ∧
      (runSearchSuccess (.varr [geoEntryBadBbox])).showList = false := by
  have h1 : mapResults [geoEntryMissing]
      = some [{ display := .vstr "Oslo", lat := none, lon := none, bbox := none }] := rfl
  have h2 : mapResults [geoEntryBadBbox] = none := rfl
  have hk := search_results_not_filtered.1 [geoEntryMissing]
    [{ display := .vstr "Oslo", lat := none, lon := none, bbox := none }] h1
  have hc := search_results_not_filtered.2 [geoEntryBadBbox] h2
  exact ⟨h1, hk.1, hk.2.2, h2, hc.1, hc.2.1⟩

/-- C9: a geocode-proxy request whose `q` is absent or trims to fewer than
2 characters is answered locally with status 200 and the empty JSON array,
never reaching the upstream service; likewise the search client
short-circuits such a term to an empty, closed result list without issuing
any request. -/
theorem short_query_shortcircuit :
    (∀ limit, geocodeGET none limit = .respond 200 "[]") ∧
      (∀ qs limit, (jsTrim qs).length < 2 → geocodeGET (some qs) limit = .respond 200 "[]") ∧
      (∀ term, (jsTrim term).length < 2 →
        runSearchGate term
          = .shortCircuit { results := [], showList := false, activeIndex := -1 }) := by
  refine ⟨fun limit => rfl, fun qs limit h => ?_, fun term h => ?_⟩
  · simp only [geocodeGET]
    rw [if_pos (Or.inr h)]
  · unfold runSearchGate
    rw [if_pos (Or.inr h)]

theorem short_query_shortcircuit_witness :
    geocodeGET (some "o") none = .respond 200 "[]" ∧
      runSearchGate "o"
        = .shortCircuit { results := [], showList := false, activeIndex := -1 } :=
  ⟨short_query_shortcircuit.2.1 "o" none (by decide),
    short_query_shortcircuit.2.2 "o" (by decide)⟩

/-- C10 (implicit behavior, confirmed): `Number('')` is 0 and finite, so
empty and whitespace-only coordinate strings coerce to 0 rather than null;
a record whose `lat`/`lng` are both the empty string is normalized to the
coordinates (0, 0) and is rendered there instead of being excluded. -/
theorem empty_string_coerces_to_zero :
    toNumber (.vstr "") = some 0 ∧
      toNumber (.vstr "  ") = some 0 ∧
      (normalizeStation "t" recEmptyCoords).lat = some 0 ∧
      (normalizeStation "t" recEmptyCoords).lng = some 0 ∧
      redrawMarkers "t" tfOff [recEmptyCoords]
        = [normalizeStation "t" recEmptyCoords] := by
  refine ⟨rfl, rfl, rfl, rfl, rfl⟩

/-- C2 counterexample: a record whose geolocation sub-object has a
non-numeric `latitude` string next to a parsable top-level `lat` normalizes
to `lat = null`: the `??` chain stops at the first non-nullish candidate,
so a present-but-unparsable value is passed to `toNumber` and no fallback
to the top-level field ever happens (the claim would require `lat = 60`). -/
theorem geoFallback_fails :
    (normalizeStation "t" recGeoBad).lat = none ∧
      toNumber (jsGet recGeoBad "lat") = some 60 := by
  constructor <;> decide

/-- C2 amended: the top-level `lat`/`Latitude` (resp. `lng`/`Longitude`)
fallback applies exactly when every latitude (resp. longitude) key of the
resolved geolocation object is absent-or-null (nullish); a present but
non-numeric entry instead short-circuits the chain and yields null. -/
theorem geoFallback_on_nullish (now : String) (s : JSVal)
    (h1 : nullish (jsGet (geoObj s) "latitude") = true)
    (h2 : nullish (jsGet (geoObj s) "lat") = true)
    (h3 : nullish (jsGet (geoObj s) "Latitude") = true)
    (h4 : nullish (jsGet (geoObj s) "Lat") = true)
    (h5 : nullish (jsGet (geoObj s) "longitude") = true)
    (h6 : nullish (jsGet (geoObj s) "lng") = true)
    (h7 : nullish (jsGet (geoObj s) "Longitude") = true)
    (h8 : nullish (jsGet (geoObj s) "Lng") = true) :
    (normalizeStation now s).lat = toNumber (coalesce (jsGet s "lat") (jsGet s "Latitude")) ∧
      (normalizeStation now s).lng
        = toNumber (coalesce (jsGet s "lng") (jsGet s "Longitude")) := by
  constructor
  · show toNumber (latCandidate s) = _
    unfold latCandidate
    rw [coalesce_of_nullish h1, coalesce_of_nullish h2, coalesce_of_nullish h3,
      coalesce_of_nullish h4]
  · show toNumber (lngCandidate s) = _
    unfold lngCandidate
    rw [coalesce_of_nullish h5, coalesce_of_nullish h6, coalesce_of_nullish h7,
      coalesce_of_nullish h8]

theorem geoFallback_on_nullish_witness :
    nullish (jsGet (geoObj recGeoEmpty) "latitude") = true ∧
      (normalizeStation "t" recGeoEmpty).lat
        = toNumber (coalesce (jsGet recGeoEmpty "lat") (jsGet recGeoEmpty "Latitude")) ∧
      (normalizeStation "t" recGeoEmpty).lat = some 60 :=
  ⟨by decide,
    (geoFallback_on_nullish "t" recGeoEmpty (by decide) (by decide) (by decide)
        (by decide) (by decide) (by decide) (by decide) (by decide)).1,
    by decide⟩

/-- C6: `passesTypeHide` returns false exactly when the station type,
stringified, trimmed and lower-cased, equals one of the four known literals
and that literal's hide-flag is on; in every other case — a nullish
`stationType` in particular — the station passes. -/
theorem passesFilter_characterization (tf : TypeFilter) (n : NormalizedStation) :
    passesTypeHide tf n = false ↔
      (nullish n.stationType = false ∧
        ((jsToLower (jsTrim (jsToString n.stationType)) = "wash" ∧ tf.hideWash = true) ∨
         (jsToLower (jsTrim (jsToString n.stationType)) = "selfservice" ∧
           tf.hideSelfservice = true) ∨
         (jsToLower (jsTrim (jsToString n.stationType)) = "truck" ∧ tf.hideTruck = true) ∨
         (jsToLower (jsTrim (jsToString n.stationType)) = "charginglocation" ∧
           tf.hideChargingLocation = true))) := by
  obtain ⟨w, sv, tr, ch⟩ := tf
  by_cases hnl : nullish n.stationType = true
  · simp [passesTypeHide, eqType_of_nullish hnl, hnl]
  · have hnl' : nullish n.stationType = false := by
      revert hnl; cases nullish n.stationType <;> simp
    have e1 : jsToLower "wash" = "wash" := by decide
    have e2 : jsToLower "selfservice" = "selfservice" := by decide
    have e3 : jsToLower "truck" = "truck" := by decide
    have e4 : jsToLower "charginglocation" = "charginglocation" := by decide
    simp only [passesTypeHide, eqType_of_not_nullish hnl', e1, e2, e3, e4, hnl',
      eq_self_iff_true, true_and]
    set t := jsToLower (jsTrim (jsToString n.stationType)) with ht
    by_cases h1 : t = "wash" <;> by_cases h2 : t = "selfservice" <;>
      by_cases h3 : t = "truck" <;> by_cases h4 : t = "charginglocation" <;>
        simp_all <;> cases w <;> cases sv <;> cases tr <;> cases ch <;> simp_all

/-- C7: a numeric string written with a comma decimal separator (digit run,
comma, digit run) coerces to the equivalent decimal rational; a non-finite
number coerces to null, and a non-numeric string coerces to null. -/
theorem toNumber_comma_decimal (ip fp : List Char) (hip : ip ≠ [])
    (hipd : ∀ c ∈ ip, c.isDigit = true) (hfpd : ∀ c ∈ fp, c.isDigit = true) :
    toNumber (.vstr (String.mk (ip ++ ',' :: fp)))
        = some ((digitsToNat ip : ℚ) + (digitsToNat fp : ℚ) / 10 ^ fp.length) ∧
      toNumber .vnan = none ∧
      toNumber (.vstr "not-a-number") = none := by
  refine ⟨?_, rfl, by decide⟩
  show jsStringToNumberCs (trimCs (replFirstComma (String.mk (ip ++ ',' :: fp)).toList))
      = _
  have htl : (String.mk (ip ++ ',' :: fp)).toList = ip ++ ',' :: fp := rfl
  rw [htl, replFirstComma_digits ip fp hipd]
  have hall : ∀ c ∈ ip ++ '.' :: fp, strWhiteSpace c = false := by
    intro c hc
    rcases List.mem_append.mp hc with h | h
    · exact isDigit_not_ws (hipd c h)
    · rcases List.mem_cons.mp h with rfl | h
      · decide
      · exact isDigit_not_ws (hfpd c h)
  rw [trimCs_eq_self _ hall]
  obtain ⟨d, ds, rfl⟩ : ∃ d ds, ip = d :: ds := by
    cases ip with
    | nil => exact absurd rfl hip
    | cons d ds => exact ⟨d, ds, rfl⟩
  have hd : d.isDigit = true := hipd d (by simp)
  have hds : ∀ c ∈ ds, c.isDigit = true := fun c hc => hipd c (by simp [hc])
  have hspan := takeWhile_append_cons Char.isDigit (d :: ds) '.' fp hipd (by decide)
  have hfspan := takeWhile_all Char.isDigit fp hfpd
  have hne : ¬ ((d :: ds).isEmpty = true ∧ (fp.takeWhile Char.isDigit).isEmpty = true) := by
    rintro ⟨h1, -⟩
    simp [List.isEmpty] at h1
  have hpu : parseUnsignedDec ((d :: ds) ++ '.' :: fp)
      = some ((digitsToNat (d :: ds) : ℚ) + (digitsToNat fp : ℚ) / 10 ^ fp.length) := by
    unfold parseUnsignedDec
    rw [hspan.1, hspan.2]
    show (if ('.' : Char) = '.' then
            if ((d :: ds).isEmpty = true ∧ (fp.takeWhile Char.isDigit).isEmpty = true)
            then none
            else
              parseExp
                ((digitsToNat (d :: ds) : ℚ) +
                  (digitsToNat (fp.takeWhile Char.isDigit) : ℚ)
                    / 10 ^ (fp.takeWhile Char.isDigit).length)
                (fp.dropWhile Char.isDigit)
          else if (d :: ds).isEmpty = true then none
          else parseExp (digitsToNat (d :: ds) : ℚ) ('.' :: fp)) = _
    rw [if_pos rfl, if_neg hne, hfspan.1, hfspan.2]
    rfl
  have h2nd : radixPrefix (d :: (ds ++ '.' :: fp)) = none := by
    cases ds with
    | nil => exact radixPrefix_none d '.' fp (Or.inr rfl)
    | cons e es =>
        exact radixPrefix_none d e (es ++ '.' :: fp) (Or.inl (hds e (by simp)))
  have hcons : (d :: ds) ++ '.' :: fp = d :: (ds ++ '.' :: fp) := rfl
  have hdp : ¬ d = '+' := ne_of_isDigit hd (by decide)
  have hdm : ¬ d = '-' := ne_of_isDigit hd (by decide)
  have hinf : ¬ d :: (ds ++ '.' :: fp) = "Infinity".toList := by
    intro e
    have e2 : d :: (ds ++ '.' :: fp) = 'I' :: "nfinity".toList := e
    have : d = 'I' := (List.cons.injEq _ _ _ _ ▸ e2).1
    exact absurd this (ne_of_isDigit hd (by decide))
  rw [hcons]
  show (match radixPrefix (d :: (ds ++ '.' :: fp)) with
        | some (r, t) => parseRadix r t
        | none =>
            match d :: (ds ++ '.' :: fp) with
            | [] => some 0
            | c :: rest =>
                if c = '+' then parseSignedTail rest false
                else if c = '-' then parseSignedTail rest true
                else parseSignedTail (c :: rest) false) = _
  rw [h2nd]
  show (if d = '+' then parseSignedTail (ds ++ '.' :: fp) false
        else if d = '-' then parseSignedTail (ds ++ '.' :: fp) true
        else parseSignedTail (d :: (ds ++ '.' :: fp)) false) = _
  rw [if_neg hdp, if_neg hdm]
  unfold parseSignedTail
  rw [if_neg hinf, ← hcons, hpu]
  simp

theorem toNumber_comma_decimal_witness :
    toNumber (.vstr "59,91") = some ((5991 : ℚ) / 100) ∧
      toNumber .vnan = none ∧
      toNumber (.vstr "not-a-number") = none := by
  obtain ⟨h1, h2, h3⟩ :=
    toNumber_comma_decimal ['5', '9'] ['9', '1'] (by decide) (by decide) (by decide)
  refine ⟨?_, h2, h3⟩
  have h1' : toNumber (.vstr "59,91")
      = some ((digitsToNat ['5', '9'] : ℚ)
          + (digitsToNat ['9', '1'] : ℚ) / 10 ^ (['9', '1'] : List Char).length) := h1
  have d1 : digitsToNat ['5', '9'] = 59 := by decide
  have d2 : digitsToNat ['9', '1'] = 91 := by decide
  have dl : (['9', '1'] : List Char).length = 2 := rfl
  rw [h1', d1, d2, dl]
  refine congrArg some ?_
  norm_num

end Kartapp
